import Mathlib

/-!
Verification of the ALGO backtesting engines.

Shallow embedding of the two simulation loops of the repository:

* `backtest_strategy` in `10.py` (MACD intraday loop with session window,
  cooldown, daily-loss cap, per-day trade cap, slippage/commission cost model);
* `BacktestEngine._run_backtest_for_params` together with
  `CrossoverStrategy.generate_signals` / `_calculate_ma` in `backtester.py`
  (moving-average crossover engine with stop-loss / take-profit / signal exits),
  and the profit-factor metric of `ResultsFormatter._calculate_metrics` plus the
  the one in the reporting block of `10.py`.

Prices are modelled as exact rationals (`ℚ`); pandas NaN propagation is
modelled with `Option ℚ` (a comparison against a missing value is `false`,
matching `NaN > x = False`).  Trade logs are kept most-recent-first (a Python
`list.append` / `trade_log[-1]` pair becomes `cons` / `head`).
-/

namespace Algo

/-! Part 1: the `10.py` loop (`backtest_strategy`, lines 94-159) -/

/-- One row of the prepared dataframe as consumed by the `10.py` loop:
calendar day, time of day in minutes after midnight, the OHLC fields the loop
reads, and the precomputed `longCond` / `shortCond` signal columns. -/
structure Row where
  day : ℕ
  timeMin : ℕ
  high : ℚ
  low : ℚ
  close : ℚ
  longCond : Bool
  shortCond : Bool
  deriving Repr, DecidableEq

/-- The constants bound at the top of `backtest_strategy` (lines 73-82),
gathered into a record so theorems can quantify over them.  `min_hold` is
declared in the source but never read, so it is omitted. -/
structure Params10 where
  cooldown : ℤ
  maxTradesDay : ℕ
  commission : ℚ
  slippage : ℚ
  stopLoss : ℚ
  profitTarget : ℚ
  capital : ℚ
  lotSize : ℤ
  maxDailyLoss : ℚ
  deriving Repr, DecidableEq

/-- The literal values of `10.py` lines 73-82. -/
def defaultParams10 : Params10 :=
  { cooldown := 1
    maxTradesDay := 15
    commission := 1/10000
    slippage := 1/20
    stopLoss := 1/50
    profitTarget := 1/25
    capital := 100000
    lotSize := 1
    maxDailyLoss := 1/50 }

/-- One entry of `trade_log`: created at entry with the exit fields `None`,
updated in place (`trade_log[-1].update`) when the trade closes. -/
structure TradeRec where
  entryIndex : ℕ
  side : ℤ
  entryPrice : ℚ
  quantity : ℤ
  exitIndex : Option ℕ
  exitPrice : Option ℚ
  pnlPct : Option ℚ
  absPnl : Option ℚ
  barsInTrade : Option ℕ
  deriving Repr, DecidableEq

/-- The mutable loop state of `backtest_strategy`.  The Python per-day dicts
`trades_taken` / `daily_pnl` start every freshly seen day at `0`, so they are
modelled as total functions that are `0` away from the days already updated. -/
structure TState where
  position : ℤ
  entryPrice : Option ℚ
  entryIndex : Option ℕ
  lastExitIndex : ℤ
  tradesTaken : ℕ → ℕ
  dailyPnl : ℕ → ℚ
  tradeLog : List TradeRec
  equity : ℚ
  quantity : ℤ

/-- Initial state (lines 84-92): flat, `last_exit_index = -cooldown`,
`equity = capital`. -/
def init10 (p : Params10) : TState :=
  { position := 0
    entryPrice := none
    entryIndex := none
    lastExitIndex := -p.cooldown
    tradesTaken := fun _ => 0
    dailyPnl := fun _ => 0
    tradeLog := []
    equity := p.capital
    quantity := 0 }

/-- The session-window gate of line 100: `09:15 <= time <= 15:30`,
expressed in minutes after midnight (555 and 930). -/
def sessionOk (row : Row) : Prop := 555 ≤ row.timeMin ∧ row.timeMin ≤ 930

instance (row : Row) : Decidable (sessionOk row) := by
  unfold sessionOk; infer_instance

/-- Opening a trade (lines 110-125): set `position` to `side`, remember the
entry price and index, append a log record whose exit fields are all `None`. -/
def openTrade (i : ℕ) (row : Row) (s : TState) (side : ℤ) : TState :=
  { s with
      position := side
      entryPrice := some row.close
      entryIndex := some i
      tradeLog :=
        { entryIndex := i, side := side, entryPrice := row.close
          quantity := s.quantity, exitIndex := none, exitPrice := none
          pnlPct := none, absPnl := none, barsInTrade := none } :: s.tradeLog }

/-- The sizing of lines 105-107: `quantity = int(capital // (price *
lot_size)) * lot_size` (float floor division, so `Int.floor`). -/
def sizedQuantity (p : Params10) (row : Row) : ℤ :=
  ⌊p.capital / (row.close * (p.lotSize : ℚ))⌋ * p.lotSize

/-- The entry branch, lines 102-126 (reached only when
`position == 0 and (i - last_exit_index) >= cooldown and trades_taken[day] <
max_trades_day`): daily-loss gate, sizing (`quantity` is written to the state
even when no entry fires), and the `longCond` / `shortCond` dispatch. -/
def entryBranch (p : Params10) (i : ℕ) (row : Row) (s : TState) : TState :=
  if s.dailyPnl row.day ≤ -(p.maxDailyLoss * p.capital) then s
  else if sizedQuantity p row < p.lotSize then
    { s with quantity := sizedQuantity p row }
  else if row.longCond then
    openTrade i row { s with quantity := sizedQuantity p row } 1
  else if row.shortCond then
    openTrade i row { s with quantity := sizedQuantity p row } (-1)
  else { s with quantity := sizedQuantity p row }

/-- The stop-loss / profit-target / end-of-day trigger of lines 134-143:
for a long, `low <= entry*(1-stop)` or `high >= entry*(1+target)`; mirrored
for a short; additionally the `15:29` time cutoff. -/
def exitTrigger (p : Params10) (row : Row) (ep : ℚ) (direction : ℤ) : Prop :=
  (if direction = 1 then
    row.low ≤ ep * (1 - p.stopLoss) ∨ row.high ≥ ep * (1 + p.profitTarget)
  else
    row.high ≥ ep * (1 + p.stopLoss) ∨ row.low ≤ ep * (1 - p.profitTarget))
  ∨ row.timeMin = 929

instance (p : Params10) (row : Row) (ep : ℚ) (d : ℤ) :
    Decidable (exitTrigger p row ep d) := by
  unfold exitTrigger; infer_instance

/-- Closing the open trade (lines 145-159): exit at `close - slippage *
direction`, net PnL after commission on the entry notional, update the most
recent log record in place, realize the PnL into equity and the per-day
counters, and start the cooldown. -/
def closeTrade (p : Params10) (i : ℕ) (row : Row) (s : TState)
    (ep : ℚ) (direction : ℤ) : TState :=
  let exitPrice : ℚ := row.close - p.slippage * (direction : ℚ)
  let absPnl : ℚ :=
    (exitPrice - ep) * (s.quantity : ℚ) * (direction : ℚ)
      - p.commission * ep * (s.quantity : ℚ)
  { s with
      position := 0
      entryPrice := none
      entryIndex := none
      lastExitIndex := (i : ℤ)
      tradesTaken := fun d =>
        if d = row.day then s.tradesTaken d + 1 else s.tradesTaken d
      dailyPnl := fun d =>
        if d = row.day then s.dailyPnl d + absPnl else s.dailyPnl d
      equity := s.equity + absPnl
      tradeLog :=
        match s.tradeLog with
        | t :: rest =>
          { t with
              exitIndex := some i
              exitPrice := some exitPrice
              pnlPct := some (absPnl / p.capital * 100)
              absPnl := some absPnl
              barsInTrade := some (i - s.entryIndex.getD 0) } :: rest
        | [] => [] }

/-- The `direction` of line 131: `1` for a long, `-1` otherwise. -/
def tradeDirection (s : TState) : ℤ :=
  if s.position = 1 then 1 else -1

/-- The exit branch, lines 129-159, guarded by `position != 0 and entry_price
is not None`. -/
def exitBranch (p : Params10) (i : ℕ) (row : Row) (s : TState) : TState :=
  if exitTrigger p row (s.entryPrice.getD 0) (tradeDirection s) then
    closeTrade p i row s (s.entryPrice.getD 0) (tradeDirection s)
  else s

/-- The body of the `for i in range(1, len(df))` loop (lines 94-159) for one
bar: session gate, then the entry branch (which always ends in `continue`),
otherwise the exit branch. -/
def step10 (p : Params10) (i : ℕ) (row : Row) (s : TState) : TState :=
  if ¬ sessionOk row then s
  else if s.position = 0 ∧ p.cooldown ≤ (i : ℤ) - s.lastExitIndex ∧
      s.tradesTaken row.day < p.maxTradesDay then
    entryBranch p i row s
  else if s.position ≠ 0 ∧ s.entryPrice.isSome then
    exitBranch p i row s
  else s

/-- The loop, threading the explicit bar index. -/
def loop10 (p : Params10) : ℕ → List Row → TState → TState
  | _, [], s => s
  | i, row :: rows, s => loop10 p (i + 1) rows (step10 p i row s)

/-- The whole simulation of `backtest_strategy`: indices start at `1`
(`for i in range(1, len(df))`), so bar 0 is skipped. -/
def run10 (p : Params10) (rows : List Row) : TState :=
  loop10 p 1 (rows.drop 1) (init10 p)

/-- Sum of realized PnL over a trade log; an open record (with `absPnl =
none`) contributes `0`. -/
def sumPnl (l : List TradeRec) : ℚ :=
  (l.map (fun t => t.absPnl.getD 0)).sum

/-! Part 2: indicators (`_calculate_ma` of `backtester.py`, the `ema`
helper of `10.py`). -/

/-- One step of pandas `ewm(span=period, adjust=False)` recursive smoothing:
`y_i = alpha * x_i + (1 - alpha) * y_{i-1}`. -/
def ewmGo (alpha : ℚ) : ℚ → List ℚ → List ℚ
  | _, [] => []
  | prev, x :: xs =>
    let y := alpha * x + (1 - alpha) * prev
    y :: ewmGo alpha y xs

/-- pandas `series.ewm(span=period, adjust=False).mean()` with smoothing
factor `alpha`: seeded by the first observed value, then recursive
smoothing.  Both the `ema` helper of `10.py` and the EMA branch of `backtester.py` use
this with `alpha = 2 / (period + 1)`. -/
def ewm (alpha : ℚ) : List ℚ → List ℚ
  | [] => []
  | x :: xs => x :: ewmGo alpha x xs

/-- pandas `series.rolling(window=period).mean()`: the value at index `i` is
defined only once `period` values have been seen (`i + 1 >= period`), and is
then the arithmetic mean of the trailing `period` values; earlier entries are
NaN, modelled as `none`. -/
def rollingMean (period : ℕ) (xs : List ℚ) : List (Option ℚ) :=
  (List.range xs.length).map fun i =>
    if period ≤ i + 1 then
      some ((((xs.drop (i + 1 - period)).take period).sum) / (period : ℚ))
    else none

/-- The three branches of the `CrossoverStrategy._calculate_ma` dispatch on
`ma_type.upper()`: `SMA`, `EMA`, or anything else (which raises
`ValueError`).  The case-insensitive string comparison of the source is
abstracted into this three-way enumeration. -/
inductive MaType where
  | SMA : MaType
  | EMA : MaType
  | other : String → MaType
  deriving Repr, DecidableEq

/-- `CrossoverStrategy._calculate_ma` (lines 111-118): rolling mean for SMA,
`ewm(span=period, adjust=False)` (so `alpha = 2/(period+1)`) for EMA, and a
raised `ValueError` — modelled as `Except.error` — otherwise.  EMA values are
wrapped in `some` so both kinds yield a NaN-aware series. -/
def calculateMa (series : List ℚ) (period : ℕ) (maType : MaType) :
    Except String (List (Option ℚ)) :=
  match maType with
  | .SMA => .ok (rollingMean period series)
  | .EMA => .ok ((ewm (2 / ((period : ℚ) + 1)) series).map some)
  | .other _ => .error ("ma_type must be either SMA or EMA")

/-! Part 3: signal generation (`CrossoverStrategy.generate_signals`,
lines 120-171). -/

/-- pandas `a > b` on two possibly-NaN values: any comparison against NaN is
`False`. -/
def optGt (a b : Option ℚ) : Bool :=
  match a, b with
  | some x, some y => decide (y < x)
  | _, _ => false

/-- pandas `series.shift(1).fillna(False)` on a boolean series: the value at
index 0 becomes `False`, index `i > 0` holds the value at `i - 1`. -/
def shiftFillFalse (xs : List Bool) : List Bool :=
  match xs with
  | [] => []
  | _ => false :: xs.dropLast

/-- One row of the `signals_df` consumed by the engine loop: the OHLC fields
it reads plus the four signal columns. -/
structure SigRow where
  low : ℚ
  high : ℚ
  close : ℚ
  longEntry : Bool
  shortEntry : Bool
  longExit : Bool
  shortExit : Bool
  deriving Repr, DecidableEq

/-- One input bar for the crossover engine (only the fields the loop and the
signal generator read). -/
structure Bar where
  low : ℚ
  high : ℚ
  close : ℚ
  deriving Repr, DecidableEq

/-- The strategy parameters consumed by `CrossoverStrategy`. -/
structure StratParams where
  fastPeriod : ℕ
  slowPeriod : ℕ
  maType : MaType
  trendFilterEnabled : Bool
  trendFilterPeriod : ℕ
  deriving Repr, DecidableEq

/-- `CrossoverStrategy.generate_signals` (lines 120-171): computes the fast,
slow and optional trend moving averages, the crossover booleans
(`crossover_up = above & ~above.shift(1).fillna(False)`, mirrored for down),
applies the trend filter to entries, and takes the opposite crossover as the
exit signal.  Any exception — in particular the `ValueError` of
`_calculate_ma` — is caught and an empty DataFrame returned, modelled by the
empty list. -/
def generateSignals (sp : StratParams) (bars : List Bar) : List SigRow :=
  let closes := bars.map Bar.close
  match calculateMa closes sp.fastPeriod sp.maType,
      calculateMa closes sp.slowPeriod sp.maType,
      (if sp.trendFilterEnabled then
        calculateMa closes sp.trendFilterPeriod sp.maType
      else .ok (closes.map some)) with
  | .ok maFast, .ok maSlow, .ok maTrend =>
    let above := List.zipWith optGt maFast maSlow
    let prevAbove := shiftFillFalse above
    let crossUp := List.zipWith (fun a p => a && !p) above prevAbove
    let crossDown := List.zipWith (fun a p => !a && p) above prevAbove
    let bullish : ℕ → Bool := fun i =>
      if sp.trendFilterEnabled then optGt (some (closes.getD i 0)) (maTrend.getD i none)
      else true
    let bearish : ℕ → Bool := fun i =>
      if sp.trendFilterEnabled then optGt (maTrend.getD i none) (some (closes.getD i 0))
      else true
    (List.range bars.length).map fun i =>
      { low := (bars.getD i ⟨0, 0, 0⟩).low
        high := (bars.getD i ⟨0, 0, 0⟩).high
        close := (bars.getD i ⟨0, 0, 0⟩).close
        longEntry := crossUp.getD i false && bullish i
        shortEntry := crossDown.getD i false && bearish i
        longExit := crossDown.getD i false
        shortExit := crossUp.getD i false }
  | _, _, _ => []

/-! The MACD crossover columns of the `10.py` functions `calculate_indicators`
and `generate_signals` (lines 37-62), needed for the first-bar claim. -/

/-- Pair each index with the `shift(1)` value at that index (`none` at
index 0, matching NaN). -/
def withPrev (xs : List (ℚ × ℚ)) : List ((ℚ × ℚ) × Option (ℚ × ℚ)) :=
  xs.zip (none :: xs.dropLast.map some)

/-- `10.py` line 46: `macd_cross_up = (MACD > MACD_sig) & (MACD.shift(1) <=
MACD_sig.shift(1))`; at index 0 the shifted values are NaN and the pandas
comparison yields `False`. -/
def macdCrossUp (macd sig : List ℚ) : List Bool :=
  (withPrev (macd.zip sig)).map fun c =>
    decide (c.1.2 < c.1.1) &&
      (match c.2 with
       | some q => decide (q.1 ≤ q.2)
       | none => false)

/-- `10.py` line 47: `macd_cross_down = (MACD < MACD_sig) & (MACD.shift(1) >=
MACD_sig.shift(1))`. -/
def macdCrossDown (macd sig : List ℚ) : List Bool :=
  (withPrev (macd.zip sig)).map fun c =>
    decide (c.1.1 < c.1.2) &&
      (match c.2 with
       | some q => decide (q.2 ≤ q.1)
       | none => false)

/-- The `longCond` / `shortCond` columns of `10.py` (`calculate_indicators`
followed by `generate_signals`): MACD line, signal line, EMA200 trend filter,
crossover flags, and the final conjunctions of lines 55-58. -/
def signals10 (closes : List ℚ) (macdFast macdSlow macdSig : ℕ) :
    List (Bool × Bool) :=
  let emaFast := ewm (2 / ((macdFast : ℚ) + 1)) closes
  let emaSlow := ewm (2 / ((macdSlow : ℚ) + 1)) closes
  let macd := List.zipWith (· - ·) emaFast emaSlow
  let sig := ewm (2 / ((macdSig : ℚ) + 1)) macd
  let ema200 := ewm (2 / 201) closes
  let up := macdCrossUp macd sig
  let down := macdCrossDown macd sig
  (List.range closes.length).map fun i =>
    (up.getD i false && decide (ema200.getD i 0 < closes.getD i 0),
     down.getD i false && decide (closes.getD i 0 < ema200.getD i 0))

/-! Part 4: the engine loop
(`BacktestEngine._run_backtest_for_params`, lines 240-313). -/

/-- The exit reason strings recorded by the engine. -/
inductive ExitReason where
  | stopLoss : ExitReason
  | takeProfit : ExitReason
  | exitSignal : ExitReason
  deriving Repr, DecidableEq

/-- The risk parameters the engine loop reads (the trailing-stop entries of
`RISK_PARAMETERS` are never consulted by the loop). -/
structure RiskParams where
  enableStopLoss : Bool
  stopLossPct : ℚ
  enableTakeProfit : Bool
  takeProfitPct : ℚ
  deriving Repr, DecidableEq

/-- The literal values of `RISK_PARAMETERS` (lines 32-44). -/
def defaultRiskParams : RiskParams :=
  { enableStopLoss := true
    stopLossPct := 1/50
    enableTakeProfit := true
    takeProfitPct := 1/25 }

/-- One ledger record appended by the engine on trade close (lines 293-298);
times are modelled by bar indices. -/
structure BTrade where
  entryIndex : ℕ
  exitIndex : ℕ
  side : ℤ
  entryPrice : ℚ
  exitPrice : ℚ
  pnl : ℚ
  reason : ExitReason
  deriving Repr, DecidableEq

/-- The loop state of the engine (lines 255-259): `entry_time` starts as `None`
and is cleared on exit, `entry_price` starts at `0.0` and is kept. -/
structure EState where
  position : ℤ
  entryPrice : ℚ
  entryIndex : Option ℕ
  tradeLog : List BTrade

/-- Initial engine state. -/
def initE : EState :=
  { position := 0, entryPrice := 0, entryIndex := none, tradeLog := [] }

/-- The exit-selection chain of lines 266-289 for one bar: the first matching
`if/elif` branch determines the reason and the recorded exit price (`Low` for
a long stop, `High` for a long target, `Close` for a signal exit; mirrored
for shorts). -/
def exitChoice (rp : RiskParams) (row : SigRow) (s : EState) :
    Option (ExitReason × ℚ) :=
  if s.position = 1 then
    if rp.enableStopLoss ∧ row.low ≤ s.entryPrice * (1 - rp.stopLossPct) then
      some (.stopLoss, row.low)
    else if rp.enableTakeProfit ∧ row.high ≥ s.entryPrice * (1 + rp.takeProfitPct) then
      some (.takeProfit, row.high)
    else if row.longExit then some (.exitSignal, row.close)
    else none
  else if s.position = -1 then
    if rp.enableStopLoss ∧ row.high ≥ s.entryPrice * (1 + rp.stopLossPct) then
      some (.stopLoss, row.high)
    else if rp.enableTakeProfit ∧ row.low ≤ s.entryPrice * (1 - rp.takeProfitPct) then
      some (.takeProfit, row.low)
    else if row.shortExit then some (.exitSignal, row.close)
    else none
  else none

/-- The "Handle Exits First" block (lines 266-301): while in a position, if
the exit chain selects a reason, append the completed `ClosedTrade` (PnL is
the fractional move `(exit-entry)/entry`, sign-adjusted) and go flat. -/
def exitPhase (rp : RiskParams) (i : ℕ) (row : SigRow) (s : EState) : EState :=
  if s.position ≠ 0 then
    match exitChoice rp row s with
    | some rx =>
      { s with
          position := 0
          entryIndex := none
          tradeLog :=
            { entryIndex := s.entryIndex.getD 0, exitIndex := i
              side := s.position, entryPrice := s.entryPrice
              exitPrice := rx.2
              pnl := if s.position = 1 then (rx.2 - s.entryPrice) / s.entryPrice
                else (s.entryPrice - rx.2) / s.entryPrice
              reason := rx.1 } :: s.tradeLog }
    | none => s
  else s

/-- The "Handle Entries" block (lines 303-311): while flat — possibly having
just closed on this very bar — open a position at the close on an entry
signal. -/
def entryPhase (i : ℕ) (row : SigRow) (s : EState) : EState :=
  if s.position = 0 then
    if row.longEntry then
      { s with position := 1, entryPrice := row.close, entryIndex := some i }
    else if row.shortEntry then
      { s with position := -1, entryPrice := row.close, entryIndex := some i }
    else s
  else s

/-- One iteration of the engine loop (lines 262-311): exits are handled
first, then — on the same bar — entries while flat. -/
def engineStep (rp : RiskParams) (i : ℕ) (row : SigRow) (s : EState) : EState :=
  entryPhase i row (exitPhase rp i row s)

/-- The engine loop over the bars of `signals_df`, threading the bar index
(`for i in range(len(signals_df))` starts at 0). -/
def engineLoop (rp : RiskParams) : ℕ → List SigRow → EState → EState
  | _, [], s => s
  | i, row :: rows, s => engineLoop rp (i + 1) rows (engineStep rp i row s)

/-- Running the engine loop from the initial flat state. -/
def runEngine (rp : RiskParams) (rows : List SigRow) : EState :=
  engineLoop rp 0 rows initE

/-- `_run_backtest_for_params` end to end: generate signals, return an empty
trade list when the signals DataFrame is empty (which is also what a
swallowed `ValueError` produces), otherwise run the loop and return its
ledger. -/
def runBacktestForParams (sp : StratParams) (rp : RiskParams)
    (bars : List Bar) : List BTrade :=
  let sdf := generateSignals sp bars
  if sdf.isEmpty then [] else (runEngine rp sdf).tradeLog

/-! Part 5: the profit-factor metrics. -/

/-- The value space of the profit-factor entry of the engine, which can be the
`np.inf` sentinel; `nan` is included to state what the metric is *not*. -/
inductive PFValue where
  | val : ℚ → PFValue
  | inf : PFValue
  | nan : PFValue
  deriving Repr, DecidableEq

/-- `10.py` line 244 (with the win/loss split of lines 217-218: wins have
`PnL > 0`, losses `PnL <= 0`): `abs(win_sum / loss_sum)` if there is at least
one losing trade and the losing sum is nonzero, else `np.nan` (`none`). -/
def profitFactor10 (pnls : List ℚ) : Option ℚ :=
  if ¬ (pnls.filter fun x => x ≤ 0).isEmpty ∧
      (pnls.filter fun x => x ≤ 0).sum ≠ 0 then
    some |(pnls.filter fun x => 0 < x).sum / (pnls.filter fun x => x ≤ 0).sum|
  else none

/-- `ResultsFormatter._calculate_metrics` line 397 (with the split of lines
375-376): `abs(wins_sum / losses_sum)` if the losing sum is nonzero, else
`np.inf`. -/
def profitFactorEngine (pnls : List ℚ) : PFValue :=
  if (pnls.filter fun x => x ≤ 0).sum ≠ 0 then
    .val |(pnls.filter fun x => 0 < x).sum /
      (pnls.filter fun x => x ≤ 0).sum|
  else .inf

/-! Part 6: invariants of the two loops. -/

/-- A `10.py` log record that is a completed round trip: the exit fields are
filled, the exit bar is strictly after the entry bar, and `bars_in_trade`
records the (positive) bar count between them. -/
def ClosedOk (t : TradeRec) : Prop :=
  ∃ j, t.exitIndex = some j ∧ t.entryIndex < j ∧
    t.barsInTrade = some (j - t.entryIndex)

/-- The reachable-state invariant of the `10.py` loop before processing bar
`i`: the position is a valid flag; while in a position the entry bookkeeping
is consistent, the most recent log record is the open one and everything
below it is closed; while flat every record is closed; and equity always
equals the initial capital plus the realized PnL of the log. -/
structure Inv10 (p : Params10) (i : ℕ) (s : TState) : Prop where
  pos_cases : s.position = 0 ∨ s.position = 1 ∨ s.position = -1
  open_case : s.position ≠ 0 →
    ∃ e ep t l, s.entryIndex = some e ∧ s.entryPrice = some ep ∧ e < i ∧
      s.tradeLog = t :: l ∧ t.exitIndex = none ∧ t.absPnl = none ∧
      t.entryIndex = e ∧ ∀ u ∈ l, ClosedOk u
  flat_case : s.position = 0 → ∀ u ∈ s.tradeLog, ClosedOk u
  equity_eq : s.equity = p.capital + sumPnl s.tradeLog

/-- The reachable-state invariant of the engine loop before processing bar
`i`: valid position flag, a consistent entry index while in a position, and
every ledger record closed strictly after its entry bar. -/
structure InvE (i : ℕ) (s : EState) : Prop where
  pos_cases : s.position = 0 ∨ s.position = 1 ∨ s.position = -1
  open_case : s.position ≠ 0 → ∃ e, s.entryIndex = some e ∧ e < i
  log_ok : ∀ t ∈ s.tradeLog, t.entryIndex < t.exitIndex

/-! Part 7: concrete inputs used by witnesses and counterexamples. -/

/-- Engine bar with a long-entry signal at close 100 (used by C1). -/
def c1Row0 : SigRow :=
  { low := 100, high := 100, close := 100, longEntry := true
    shortEntry := false, longExit := false, shortExit := false }

/-- Engine bar breaching the 2% stop of an entry at 100 (`low = 90`) while
closing back at 100 (used by C1). -/
def c1Row1 : SigRow :=
  { low := 90, high := 100, close := 100, longEntry := false
    shortEntry := false, longExit := false, shortExit := false }

/-- Engine bar with a long-entry signal (used by the C2 witness run). -/
def c2Row0 : SigRow :=
  { low := 200, high := 200, close := 200, longEntry := true
    shortEntry := false, longExit := false, shortExit := false }

/-- Engine bar breaching both the 2% stop (`low = 190`) and the 4% target
(`high = 210`) of an entry at 200 on the same bar (used by C2). -/
def c2Row1 : SigRow :=
  { low := 190, high := 210, close := 200, longEntry := false
    shortEntry := false, longExit := false, shortExit := false }

/-- Engine bar with a long-entry signal at close 100 (used by C3). -/
def c3Row0 : SigRow :=
  { low := 100, high := 100, close := 100, longEntry := true
    shortEntry := false, longExit := false, shortExit := false }

/-- Engine bar triggering no exit condition at all (used by C3): the run
reaches the end of the data still long. -/
def c3Row1 : SigRow :=
  { low := 100, high := 100, close := 100, longEntry := false
    shortEntry := false, longExit := false, shortExit := false }

/-- `10.py` bar 0 (skipped by the loop, which starts at `i = 1`). -/
def c3Bar0 : Row :=
  { day := 1, timeMin := 555, high := 100, low := 100, close := 100
    longCond := false, shortCond := false }

/-- `10.py` bar with a long signal inside the session (used by C3). -/
def c3Bar1 : Row :=
  { day := 1, timeMin := 600, high := 100, low := 100, close := 100
    longCond := true, shortCond := false }

/-- `10.py` bar triggering no exit: within stop and target bands, not at the
15:29 cutoff (used by C3). -/
def c3Bar2 : Row :=
  { day := 1, timeMin := 601, high := 100, low := 100, close := 100
    longCond := false, shortCond := false }

/-- `10.py` bar breaching the 2% stop of an entry at 100 (`low = 97`),
closing at 98: closes the C3 witness run flat. -/
def c3Bar2Stop : Row :=
  { day := 1, timeMin := 601, high := 100, low := 97, close := 98
    longCond := false, shortCond := false }

/-- `10.py` bar 0 for the C10 witness run (skipped by the loop). -/
def c10Bar0 : Row :=
  { day := 1, timeMin := 555, high := 100, low := 100, close := 100
    longCond := false, shortCond := false }

/-- `10.py` long entry at 100 (C10 witness run). -/
def c10Bar1 : Row :=
  { day := 1, timeMin := 600, high := 100, low := 100, close := 100
    longCond := true, shortCond := false }

/-- `10.py` bar breaching the 2% stop (`low = 97`), closing at 98 (C10
witness run: produces one completed round trip, bars 1 to 2). -/
def c10Bar2 : Row :=
  { day := 1, timeMin := 601, high := 100, low := 97, close := 98
    longCond := false, shortCond := false }

/-- Engine bar with a long-entry signal at close 100 (C10 witness run). -/
def c10Row0 : SigRow :=
  { low := 100, high := 100, close := 100, longEntry := true
    shortEntry := false, longExit := false, shortExit := false }

/-- Engine bar breaching the 2% stop (C10 witness run). -/
def c10Row1 : SigRow :=
  { low := 90, high := 100, close := 100, longEntry := false
    shortEntry := false, longExit := false, shortExit := false }

/-- A `10.py` state on day 1 whose daily loss already exceeds the 2% cap of
`defaultParams10` (2000 against capital 100000), used by C5. -/
def c5State : TState :=
  { init10 defaultParams10 with
      dailyPnl := fun d => if d = 1 then -2000 else 0 }

/-- A day-1 in-session bar with a long signal: under `c5State` the daily-loss
gate must reject it (used by C5). -/
def c5Bar : Row :=
  { day := 1, timeMin := 600, high := 100, low := 100, close := 100
    longCond := true, shortCond := false }

/-- A day-2 in-session bar with a long signal: the daily counter of day 2 is
fresh, so the entry must be accepted (used by C5). -/
def c5NextDayBar : Row :=
  { day := 2, timeMin := 600, high := 100, low := 100, close := 100
    longCond := true, shortCond := false }

/-- A one-bar close series for witnesses of the signal claims. -/
def c6Bars : List Bar := [⟨100, 100, 100⟩, ⟨101, 101, 101⟩]

/-- An engine state that is long at 100, used by the C1 step witnesses. -/
def cEngineLong : EState :=
  { position := 1, entryPrice := 100, entryIndex := some 3, tradeLog := [] }

/-- An engine state that is short at 100, used by the C1 step witness for
the short stop-loss case. -/
def cEngineShort : EState :=
  { position := -1, entryPrice := 100, entryIndex := some 3, tradeLog := [] }

/-- Engine bar clearing the 4% target of a long at 100 (`high = 105`)
without touching the stop (used by the C1 witness). -/
def c1RowTp : SigRow :=
  { low := 100, high := 105, close := 101, longEntry := false
    shortEntry := false, longExit := false, shortExit := false }

/-- Engine bar breaching the 2% stop of a short at 100 (`high = 103`) (used
by the C1 witness). -/
def c1RowShortStop : SigRow :=
  { low := 100, high := 103, close := 101, longEntry := false
    shortEntry := false, longExit := false, shortExit := false }

/-- An engine state that is long at 200, used by the C2 witness together
with `c2Row1`. -/
def c2State : EState :=
  { position := 1, entryPrice := 200, entryIndex := some 0, tradeLog := [] }

/-- One-bar close series used by the C7 witness. -/
def c7Bars : List Bar := [⟨100, 100, 100⟩]

/-- A `10.py` mid-run state that is long at 100 with the open record at the
head of the log, used by the C1 witness. -/
def c1State10 : TState :=
  { position := 1
    entryPrice := some 100
    entryIndex := some 4
    lastExitIndex := -1
    tradesTaken := fun _ => 0
    dailyPnl := fun _ => 0
    tradeLog :=
      [{ entryIndex := 4, side := 1, entryPrice := 100, quantity := 1000
         exitIndex := none, exitPrice := none, pnlPct := none
         absPnl := none, barsInTrade := none }]
    equity := 100000
    quantity := 1000 }

/-- A bar breaching the stop of `c1State10` (`low = 97`) and closing at 98,
inside the session (used by the C1 witness). -/
def c1Bar10 : Row :=
  { day := 1, timeMin := 700, high := 100, low := 97, close := 98
    longCond := false, shortCond := false }

/-! Part 8: lemmas about the `10.py` loop. -/

theorem sumPnl_cons (t : TradeRec) (l : List TradeRec) :
    sumPnl (t :: l) = t.absPnl.getD 0 + sumPnl l := by
  simp [sumPnl]

theorem Inv10.mono {p : Params10} {i j : ℕ} {s : TState}
    (h : Inv10 p i s) (hij : i ≤ j) : Inv10 p j s := by
  refine ⟨h.pos_cases, ?_, h.flat_case, h.equity_eq⟩
  intro hp
  obtain ⟨e, ep, t, l, h1, h2, h3, h4, h5, h6, h7, h8⟩ := h.open_case hp
  exact ⟨e, ep, t, l, h1, h2, lt_of_lt_of_le h3 hij, h4, h5, h6, h7, h8⟩

/-- One step of the `10.py` loop preserves the reachable-state invariant. -/
theorem step10_inv (p : Params10) (i : ℕ) (row : Row) (s : TState)
    (h : Inv10 p i s) : Inv10 p (i + 1) (step10 p i row s) := by
  unfold step10
  by_cases hsess : sessionOk row
  case neg =>
    rw [if_pos hsess]
    exact h.mono (Nat.le_succ i)
  rw [if_neg (not_not_intro hsess)]
  by_cases hentry : s.position = 0 ∧ p.cooldown ≤ (i : ℤ) - s.lastExitIndex ∧
      s.tradesTaken row.day < p.maxTradesDay
  case pos =>
    -- entry branch; the position is 0 here
    rw [if_pos hentry]
    obtain ⟨hpos, _, _⟩ := hentry
    unfold entryBranch
    split_ifs with hdaily hqty hlong hshort
    · exact h.mono (Nat.le_succ i)
    · -- quantity update only
      refine ⟨?_, ?_, ?_, ?_⟩
      · simpa using h.pos_cases
      · intro hp; simp [hpos] at hp
      · intro _ u hu
        exact h.flat_case hpos u (by simpa using hu)
      · simpa [sumPnl] using h.equity_eq
    · -- long entry
      refine ⟨Or.inr (Or.inl rfl), ?_, ?_, ?_⟩
      · intro _
        refine ⟨i, row.close, _, s.tradeLog, rfl, rfl, Nat.lt_succ_self i,
          rfl, rfl, rfl, rfl, ?_⟩
        exact h.flat_case hpos
      · intro hp; simp [openTrade] at hp
      · simp only [openTrade, sumPnl_cons]
        simpa [sumPnl] using h.equity_eq
    · -- short entry
      refine ⟨Or.inr (Or.inr rfl), ?_, ?_, ?_⟩
      · intro _
        refine ⟨i, row.close, _, s.tradeLog, rfl, rfl, Nat.lt_succ_self i,
          rfl, rfl, rfl, rfl, ?_⟩
        exact h.flat_case hpos
      · intro hp; simp [openTrade] at hp
      · simp only [openTrade, sumPnl_cons]
        simpa [sumPnl] using h.equity_eq
    · -- no signal: only quantity written
      refine ⟨?_, ?_, ?_, ?_⟩
      · simpa using h.pos_cases
      · intro hp; simp [hpos] at hp
      · intro _ u hu
        exact h.flat_case hpos u (by simpa using hu)
      · simpa [sumPnl] using h.equity_eq
  case neg =>
  rw [if_neg hentry]
  by_cases hexit : s.position ≠ 0 ∧ s.entryPrice.isSome = true
  case neg =>
    rw [if_neg hexit]
    exact h.mono (Nat.le_succ i)
  case pos =>
    -- exit branch; the position is nonzero here
    rw [if_pos hexit]
    obtain ⟨hpos, _⟩ := hexit
    obtain ⟨e, ep, t, l, he, hep, hei, hlog, htx, hta, hte, hcl⟩ :=
      h.open_case hpos
    unfold exitBranch
    split_ifs with htrig
    · -- the trade closes
      refine ⟨Or.inl rfl, ?_, ?_, ?_⟩
      · intro hp; simp [closeTrade] at hp
      · intro _ u hu
        simp only [closeTrade, hlog, List.mem_cons] at hu
        rcases hu with hu | hu
        · subst hu
          exact ⟨i, rfl, by simpa [hte] using hei, by simp [hte, he]⟩
        · exact hcl u hu
      · simp only [closeTrade, hlog, sumPnl_cons]
        have := h.equity_eq
        rw [hlog, sumPnl_cons, hta] at this
        simp only [this]
        simp
        ring
    · exact h.mono (Nat.le_succ i)

/-- The `10.py` loop preserves the invariant. -/
theorem loop10_inv (p : Params10) (rows : List Row) (i : ℕ) (s : TState)
    (h : Inv10 p i s) : Inv10 p (i + rows.length) (loop10 p i rows s) := by
  induction rows generalizing i s with
  | nil => simpa [loop10] using h
  | cons row rows ih =>
    have h2 := ih (i + 1) (step10 p i row s) (step10_inv p i row s h)
    simp only [loop10, List.length_cons]
    have : i + 1 + rows.length = i + (rows.length + 1) := by omega
    rwa [this] at h2

/-- The initial state satisfies the invariant at index 1. -/
theorem init10_inv (p : Params10) : Inv10 p 1 (init10 p) := by
  refine ⟨Or.inl rfl, ?_, ?_, ?_⟩
  · intro hp; simp [init10] at hp
  · intro _ u hu; simp [init10] at hu
  · simp [init10, sumPnl]

/-- Every final state of a `10.py` run satisfies the invariant. -/
theorem run10_inv (p : Params10) (rows : List Row) :
    Inv10 p (1 + (rows.drop 1).length) (run10 p rows) :=
  loop10_inv p (rows.drop 1) 1 (init10 p) (init10_inv p)

/-! Part 9: lemmas about the engine loop. -/

/-- The exit phase preserves the engine invariant (and bumps the index). -/
theorem exitPhase_inv (rp : RiskParams) (i : ℕ) (row : SigRow) (s : EState)
    (h : InvE i s) : InvE (i + 1) (exitPhase rp i row s) := by
  unfold exitPhase
  by_cases hpos : s.position ≠ 0
  · rw [if_pos hpos]
    obtain ⟨e, he, hei⟩ := h.open_case hpos
    rcases hx : exitChoice rp row s with _ | rx
    · exact ⟨h.pos_cases, fun _ => ⟨e, he, Nat.lt_succ_of_lt hei⟩, h.log_ok⟩
    · refine ⟨Or.inl rfl, fun hq => absurd rfl hq, ?_⟩
      intro t ht
      rcases List.mem_cons.mp ht with ht | ht
      · subst ht; simpa [he] using hei
      · exact h.log_ok t ht
  · rw [if_neg hpos]
    push_neg at hpos
    exact ⟨h.pos_cases, fun hq => absurd hpos hq, h.log_ok⟩

/-- The entry phase preserves the engine invariant at a fixed index bound. -/
theorem entryPhase_inv (i : ℕ) (row : SigRow) (s : EState)
    (h : InvE (i + 1) s) : InvE (i + 1) (entryPhase i row s) := by
  unfold entryPhase
  split_ifs with h0 hlo hsh
  · exact ⟨Or.inr (Or.inl rfl), fun _ => ⟨i, rfl, Nat.lt_succ_self i⟩, h.log_ok⟩
  · exact ⟨Or.inr (Or.inr rfl), fun _ => ⟨i, rfl, Nat.lt_succ_self i⟩, h.log_ok⟩
  · exact h
  · exact h

/-- One engine step preserves the engine invariant. -/
theorem engineStep_inv (rp : RiskParams) (i : ℕ) (row : SigRow) (s : EState)
    (h : InvE i s) : InvE (i + 1) (engineStep rp i row s) :=
  entryPhase_inv i row _ (exitPhase_inv rp i row s h)

/-- The engine loop preserves the invariant. -/
theorem engineLoop_inv (rp : RiskParams) (rows : List SigRow) (i : ℕ)
    (s : EState) (h : InvE i s) :
    InvE (i + rows.length) (engineLoop rp i rows s) := by
  induction rows generalizing i s with
  | nil => simpa [engineLoop] using h
  | cons row rows ih =>
    have h2 := ih (i + 1) (engineStep rp i row s) (engineStep_inv rp i row s h)
    simp only [engineLoop, List.length_cons]
    have : i + 1 + rows.length = i + (rows.length + 1) := by omega
    rwa [this] at h2

/-- Every final state of an engine run satisfies the invariant. -/
theorem runEngine_inv (rp : RiskParams) (rows : List SigRow) :
    InvE rows.length (runEngine rp rows) := by
  have h0 : InvE 0 initE := by
    refine ⟨Or.inl rfl, ?_, ?_⟩
    · intro hp; simp [initE] at hp
    · intro t ht; simp [initE] at ht
  simpa using engineLoop_inv rp rows 0 initE h0

/-! Part 10: the daily-loss gate. -/

/-- While flat with the day of the bar already at or past the loss cap, the
`10.py` loop body changes nothing: the entry branch stops at the daily-loss
`continue` and the exit branch requires an open position. -/
theorem step10_blocked (p : Params10) (i : ℕ) (row : Row) (s : TState)
    (hpos : s.position = 0)
    (hloss : s.dailyPnl row.day ≤ -(p.maxDailyLoss * p.capital)) :
    step10 p i row s = s := by
  unfold step10
  by_cases hsess : sessionOk row
  case neg => rw [if_pos hsess]
  rw [if_neg (not_not_intro hsess)]
  by_cases hentry : s.position = 0 ∧ p.cooldown ≤ (i : ℤ) - s.lastExitIndex ∧
      s.tradesTaken row.day < p.maxTradesDay
  · rw [if_pos hentry]
    unfold entryBranch
    rw [if_pos hloss]
  · rw [if_neg hentry, if_neg (by simp [hpos])]

/-- While flat with day `d` at or past the loss cap, processing any run of
bars that all belong to day `d` changes nothing. -/
theorem loop10_blocked (p : Params10) (d : ℕ) (rows : List Row) (i : ℕ)
    (s : TState) (hpos : s.position = 0)
    (hloss : s.dailyPnl d ≤ -(p.maxDailyLoss * p.capital))
    (hdays : ∀ r ∈ rows, r.day = d) :
    loop10 p i rows s = s := by
  induction rows generalizing i with
  | nil => rfl
  | cons row rows ih =>
    have hday : row.day = d := hdays row (List.mem_cons_self row rows)
    have hstep : step10 p i row s = s :=
      step10_blocked p i row s hpos (by rwa [hday])
    simp only [loop10, hstep]
    exact ih (i + 1) (fun r hr => hdays r (List.mem_cons_of_mem row hr))

/-! Part 11: indicator lemmas. -/

/-- The `ewm` recursion is constant on a constant tail. -/
theorem ewmGo_const (alpha v : ℚ) (m : ℕ) :
    ewmGo alpha v (List.replicate m v) = List.replicate m v := by
  induction m with
  | zero => rfl
  | succ m ih =>
    have hy : alpha * v + (1 - alpha) * v = v := by ring
    simp only [List.replicate_succ, ewmGo, hy, ih]

/-- pandas `ewm(span, adjust=False)` over a constant series is constant. -/
theorem ewm_const (alpha v : ℚ) (n : ℕ) :
    ewm alpha (List.replicate n v) = List.replicate n v := by
  cases n with
  | zero => rfl
  | succ n =>
    rw [List.replicate_succ]
    show v :: ewmGo alpha v (List.replicate n v) = v :: List.replicate n v
    rw [ewmGo_const]

/-- pandas `rolling(period).mean()` over a constant series is the constant
at every index past the warm-up. -/
theorem rollingMean_const (v : ℚ) (n period i : ℕ) (hp : 1 ≤ period)
    (hip : period - 1 ≤ i) (hin : i < n) :
    (rollingMean period (List.replicate n v)).getD i none = some v := by
  unfold rollingMean
  have hlen : (List.replicate n v).length = n := List.length_replicate n v
  rw [hlen, List.getD_eq_getElem?_getD, List.getElem?_map,
    List.getElem?_range hin]
  have hcond : period ≤ i + 1 := by omega
  simp only [Option.map_some', if_pos hcond, Option.getD_some]
  rw [List.drop_replicate, List.take_replicate]
  have hmin : min period (n - (i + 1 - period)) = period := by omega
  rw [hmin, List.sum_replicate, nsmul_eq_mul]
  have hpq : (period : ℚ) ≠ 0 := Nat.cast_ne_zero.mpr (by omega)
  rw [mul_div_cancel_left₀ v hpq]

/-! Part 12: first-bar signal lemmas. -/

/-- A valid ma_type always yields a series (no exception). -/
theorem calculateMa_ok (series : List ℚ) (period : ℕ) (mt : MaType)
    (hmt : mt = .SMA ∨ mt = .EMA) :
    ∃ l, calculateMa series period mt = .ok l := by
  rcases hmt with h | h <;> subst h <;> exact ⟨_, rfl⟩

/-- On a nonempty series with `period >= 1`, both moving-average kinds yield
a series whose first element is either undefined (SMA warm-up) or the first
input value itself (EMA seed, or SMA with period 1). -/
theorem calculateMa_head (c : ℚ) (cs : List ℚ) (period : ℕ) (hp : 1 ≤ period)
    (mt : MaType) (hmt : mt = .SMA ∨ mt = .EMA) :
    ∃ v rest, calculateMa (c :: cs) period mt = .ok (v :: rest) ∧
      (v = none ∨ v = some c) := by
  rcases hmt with h | h
  · subst h
    unfold calculateMa rollingMean
    simp only [List.length_cons, List.range_succ_eq_map, List.map_cons]
    rcases Nat.lt_or_ge 1 period with h2 | h2
    · exact ⟨none, _, by rw [if_neg (by omega)], Or.inl rfl⟩
    · have hp1 : period = 1 := by omega
      subst hp1
      have hhead : (if 1 ≤ 0 + 1 then
          some ((((c :: cs).drop (0 + 1 - 1)).take 1).sum / ((1 : ℕ) : ℚ))
          else none) = some c := by norm_num
      rw [hhead]
      exact ⟨some c, _, rfl, Or.inr rfl⟩
  · subst h
    unfold calculateMa ewm
    exact ⟨some c, _, rfl, Or.inr rfl⟩

/-- The pandas comparison against a possibly-missing value is never true
when either side is missing or both sides are equal. -/
theorem optGt_head_false (a b : Option ℚ) (c : ℚ)
    (ha : a = none ∨ a = some c) (hb : b = none ∨ b = some c) :
    optGt a b = false := by
  rcases ha with h | h <;> rcases hb with h2 | h2 <;>
    subst h <;> subst h2 <;> simp [optGt]

/-- The MACD cross-up column of `10.py` is `False` on the first bar: the
shifted comparison has no previous value. -/
theorem macdCrossUp_head (m s : List ℚ) :
    (macdCrossUp m s).getD 0 false = false := by
  unfold macdCrossUp withPrev
  rcases hz : m.zip s with _ | ⟨z, zs⟩
  · simp
  · simp

/-- The MACD cross-down column of `10.py` is `False` on the first bar. -/
theorem macdCrossDown_head (m s : List ℚ) :
    (macdCrossDown m s).getD 0 false = false := by
  unfold macdCrossDown withPrev
  rcases hz : m.zip s with _ | ⟨z, zs⟩
  · simp
  · simp

/-- The entry phase of the engine never touches the ledger. -/
theorem entryPhase_tradeLog (i : ℕ) (row : SigRow) (s : EState) :
    (entryPhase i row s).tradeLog = s.tradeLog := by
  unfold entryPhase
  split_ifs <;> rfl

/-! Part 13: the claims. -/

/-- Claim C4: for every run of the `10.py` simulation loop, the final equity
equals the initial capital plus the sum of the realized net PnL over the
trade log (open records contribute nothing); equity is advanced only at
trade close, which is exactly what makes this invariant hold at every
prefix of the run. -/
theorem C4_equity_conservation (p : Params10) (rows : List Row) :
    (run10 p rows).equity = p.capital + sumPnl (run10 p rows).tradeLog :=
  (run10_inv p rows).equity_eq

/-- Claim C10: a position opened at bar `i` is never closed on bar `i`.  In
`10.py` every completed record has an exit index strictly exceeding its entry
index and `bars_in_trade >= 1`; in the engine every ledger record has an exit bar
strictly exceeds its entry bar. -/
theorem C10_no_same_bar_roundtrip :
    (∀ (p : Params10) (rows : List Row), ∀ t ∈ (run10 p rows).tradeLog,
      ∀ j, t.exitIndex = some j →
        t.entryIndex < j ∧ t.barsInTrade = some (j - t.entryIndex) ∧
          1 ≤ j - t.entryIndex) ∧
    (∀ (rp : RiskParams) (rows : List SigRow),
      ∀ t ∈ (runEngine rp rows).tradeLog, t.entryIndex < t.exitIndex) := by
  constructor
  · intro p rows t ht j hj
    have hinv := run10_inv p rows
    have hclosed : ClosedOk t →
        t.entryIndex < j ∧ t.barsInTrade = some (j - t.entryIndex) ∧
          1 ≤ j - t.entryIndex := by
      rintro ⟨j2, hj2, hlt, hb⟩
      rw [hj] at hj2
      injection hj2 with hjj
      subst hjj
      exact ⟨hlt, hb, by omega⟩
    rcases hinv.pos_cases with h0 | h1
    · exact hclosed (hinv.flat_case h0 t ht)
    · have hne : (run10 p rows).position ≠ 0 := by
        rcases h1 with h | h <;> rw [h] <;> decide
      obtain ⟨e, ep, t0, l, _, _, _, hlog, htx, _, _, hcl⟩ :=
        hinv.open_case hne
      rw [hlog] at ht
      rcases List.mem_cons.mp ht with rfl | hml
      · rw [htx] at hj; cases hj
      · exact hclosed (hcl t hml)
  · intro rp rows t ht
    exact (runEngine_inv rp rows).log_ok t ht

unseal Rat.add Rat.sub Rat.mul Rat.inv in
/-- Witness for C10 at a concrete run of each loop: the `10.py` run closes a
trade entered at bar 1 on bar 2, the engine run closes a trade entered at
bar 0 on bar 1. -/
theorem C10_witness :
    ((1 : ℕ) < 2 ∧
      ({ entryIndex := 1, side := 1, entryPrice := 100, quantity := 1000
         exitIndex := some 2, exitPrice := some (1959/20)
         pnlPct := some (-103/50), absPnl := some (-2060)
         barsInTrade := some 1 } : TradeRec).barsInTrade = some (2 - 1) ∧
      1 ≤ 2 - 1) ∧
    (0 : ℕ) < 1 := by
  constructor
  · exact C10_no_same_bar_roundtrip.1 defaultParams10 [c10Bar0, c10Bar1, c10Bar2]
      { entryIndex := 1, side := 1, entryPrice := 100, quantity := 1000
        exitIndex := some 2, exitPrice := some (1959/20)
        pnlPct := some (-103/50), absPnl := some (-2060)
        barsInTrade := some 1 }
      (by decide) 2 (by decide)
  · exact C10_no_same_bar_roundtrip.2 defaultRiskParams [c10Row0, c10Row1]
      { entryIndex := 0, exitIndex := 1, side := 1, entryPrice := 100
        exitPrice := 90, pnl := -1/10, reason := .stopLoss }
      (by decide)

unseal Rat.add Rat.sub Rat.mul Rat.inv in
/-- Counterexample to claim C3: reaching the end of the data with an open
position does NOT force a close.  On a two-bar engine run whose second bar
triggers nothing, the final state is still long and the ledger is empty —
there is no `EndOfData` record and the run does not end flat.  Likewise the
`10.py` run ends long, with the exit fields of the open record still `None`. -/
theorem C3_counterexample :
    (runEngine defaultRiskParams [c3Row0, c3Row1]).position = 1 ∧
    (runEngine defaultRiskParams [c3Row0, c3Row1]).tradeLog = [] ∧
    (run10 defaultParams10 [c3Bar0, c3Bar1, c3Bar2]).position = 1 ∧
    (run10 defaultParams10 [c3Bar0, c3Bar1, c3Bar2]).tradeLog.map
      TradeRec.exitIndex = [none] := by
  refine ⟨by decide, by decide, by decide, by decide⟩

/-- Claim C3, amended: neither loop force-closes at the end of the data.  In
`10.py`, if the run ends flat every ledger record is completed, and if it
ends in a position the most recent record is the open one (null exit fields)
with every record below it completed; no `EndOfData` record exists. -/
theorem C3_amended (p : Params10) (rows : List Row) :
    ((run10 p rows).position = 0 →
      ∀ t ∈ (run10 p rows).tradeLog, t.exitIndex.isSome = true) ∧
    ((run10 p rows).position ≠ 0 →
      ∃ t l, (run10 p rows).tradeLog = t :: l ∧ t.exitIndex = none ∧
        ∀ u ∈ l, u.exitIndex.isSome = true) := by
  have hinv := run10_inv p rows
  constructor
  · intro h0 t ht
    obtain ⟨j, hj, _, _⟩ := hinv.flat_case h0 t ht
    simp [hj]
  · intro hne
    obtain ⟨e, ep, t, l, _, _, _, hlog, htx, _, _, hcl⟩ := hinv.open_case hne
    refine ⟨t, l, hlog, htx, ?_⟩
    intro u hu
    obtain ⟨j, hj, _, _⟩ := hcl u hu
    simp [hj]

unseal Rat.add Rat.sub Rat.mul Rat.inv in
/-- Witness for the amended C3 on concrete runs: a run that ends flat has a
fully completed ledger, and a run that ends long leaves exactly the open
record pending. -/
theorem C3_amended_witness :
    (∀ t ∈ (run10 defaultParams10 [c3Bar0, c3Bar1, c3Bar2Stop]).tradeLog,
      t.exitIndex.isSome = true) ∧
    (∃ t l, (run10 defaultParams10 [c3Bar0, c3Bar1, c3Bar2]).tradeLog =
        t :: l ∧ t.exitIndex = none ∧ ∀ u ∈ l, u.exitIndex.isSome = true) :=
  ⟨(C3_amended defaultParams10 [c3Bar0, c3Bar1, c3Bar2Stop]).1 (by decide),
   (C3_amended defaultParams10 [c3Bar0, c3Bar1, c3Bar2]).2 (by decide)⟩

/-- Claim C5: once the cumulative realized loss of a calendar day has reached
the cap `maxDailyLoss * capital`, a flat run accepts no further entries on
any remaining bar of that day (the whole state is left untouched), and a bar
of a fresh day — whose daily counter is still `0` — passes the gate and
opens a position on its long signal. -/
theorem C5_daily_loss_cap (p : Params10) (d : ℕ) (rows : List Row)
    (i j : ℕ) (s : TState) (r2 : Row)
    (hpos : s.position = 0)
    (hloss : s.dailyPnl d ≤ -(p.maxDailyLoss * p.capital))
    (hdays : ∀ r ∈ rows, r.day = d)
    (hd2 : s.dailyPnl r2.day = 0)
    (hlim : 0 < p.maxDailyLoss * p.capital)
    (hsess : sessionOk r2)
    (hcool : p.cooldown ≤ (j : ℤ) - s.lastExitIndex)
    (htt : s.tradesTaken r2.day < p.maxTradesDay)
    (hq : ¬ sizedQuantity p r2 < p.lotSize)
    (hlong : r2.longCond = true) :
    loop10 p i rows s = s ∧
    (step10 p j r2 (loop10 p i rows s)).position = 1 := by
  have hid := loop10_blocked p d rows i s hpos hloss hdays
  refine ⟨hid, ?_⟩
  rw [hid]
  unfold step10
  rw [if_neg (not_not_intro hsess), if_pos ⟨hpos, hcool, htt⟩]
  unfold entryBranch
  rw [if_neg (by rw [hd2]; intro hcon; linarith), if_neg hq, if_pos hlong]
  rfl

unseal Rat.add Rat.sub Rat.mul Rat.inv in
/-- Witness for C5: with day 1 already 2000 in the red (the 2% cap on a
capital of 100000), a day-1 bar with a long signal changes nothing, while
the first bar of the next day enters long. -/
theorem C5_witness :
    loop10 defaultParams10 2 [c5Bar] c5State = c5State ∧
    (step10 defaultParams10 3 c5NextDayBar
      (loop10 defaultParams10 2 [c5Bar] c5State)).position = 1 :=
  C5_daily_loss_cap defaultParams10 1 [c5Bar] 2 3 c5State c5NextDayBar
    (by decide) (by decide) (by decide) (by decide) (by decide) (by decide)
    (by decide) (by decide) (by decide) (by decide)

unseal Rat.add Rat.sub Rat.mul Rat.inv in
/-- Counterexample to claim C1: in the engine a stop-loss exit records the
LOW of the bar, not the close adjusted by slippage.  Entering long at 100 and
stopping out on a bar with low 90 and close 100 records exit price 90, which
differs from `close - 0.05` (the absolute slippage of `10.py`), from
`close * (1 - 0.0005)` (the configured `slippage_pct` of the engine), and from the
close itself. -/
theorem C1_counterexample :
    (runEngine defaultRiskParams [c1Row0, c1Row1]).tradeLog =
      [{ entryIndex := 0, exitIndex := 1, side := 1, entryPrice := 100
         exitPrice := 90, pnl := -1/10, reason := .stopLoss }] ∧
    c1Row1.close = 100 ∧
    (90 : ℚ) ≠ 100 - 1/20 ∧
    (90 : ℚ) ≠ 100 * (1 - 1/2000) ∧
    (90 : ℚ) ≠ 100 := by
  refine ⟨by decide, rfl, by decide, by decide, by decide⟩

/-- Claim C1, amended: when an exit fires for an open position, the `10.py`
loop records `close - slippage * direction` (`close - slippage` long,
`close + slippage` short) — never the trigger price — while the engine
records the bar LOW for a long stop-loss, the bar HIGH for a long
take-profit and for a short stop-loss, with no slippage adjustment at all. -/
theorem C1_exit_price :
    (∀ (p : Params10) (i : ℕ) (row : Row) (s : TState) (ep : ℚ)
      (t0 : TradeRec) (l0 : List TradeRec),
      s.position = 1 ∨ s.position = -1 →
      s.entryPrice = some ep →
      s.tradeLog = t0 :: l0 →
      sessionOk row →
      (step10 p i row s).position = 0 →
      ∃ t, (step10 p i row s).tradeLog = t :: l0 ∧
        t.exitPrice = some (row.close - p.slippage * ((s.position : ℤ) : ℚ))) ∧
    (∀ (rp : RiskParams) (i : ℕ) (row : SigRow) (s : EState),
      s.position = 1 → rp.enableStopLoss = true →
      row.low ≤ s.entryPrice * (1 - rp.stopLossPct) →
      ∃ t, (engineStep rp i row s).tradeLog = t :: s.tradeLog ∧
        t.exitPrice = row.low ∧ t.reason = .stopLoss) ∧
    (∀ (rp : RiskParams) (i : ℕ) (row : SigRow) (s : EState),
      s.position = 1 → rp.enableTakeProfit = true →
      ¬ (rp.enableStopLoss = true ∧
          row.low ≤ s.entryPrice * (1 - rp.stopLossPct)) →
      row.high ≥ s.entryPrice * (1 + rp.takeProfitPct) →
      ∃ t, (engineStep rp i row s).tradeLog = t :: s.tradeLog ∧
        t.exitPrice = row.high ∧ t.reason = .takeProfit) ∧
    (∀ (rp : RiskParams) (i : ℕ) (row : SigRow) (s : EState),
      s.position = -1 → rp.enableStopLoss = true →
      row.high ≥ s.entryPrice * (1 + rp.stopLossPct) →
      ∃ t, (engineStep rp i row s).tradeLog = t :: s.tradeLog ∧
        t.exitPrice = row.high ∧ t.reason = .stopLoss) := by
  refine ⟨?_, ?_, ?_, ?_⟩
  · intro p i row s ep t0 l0 hpos hep hlog hsess hexit
    have hne : s.position ≠ 0 := by
      rcases hpos with h | h <;> rw [h] <;> decide
    have hnent : ¬ (s.position = 0 ∧ p.cooldown ≤ (i : ℤ) - s.lastExitIndex ∧
        s.tradesTaken row.day < p.maxTradesDay) := fun hc => hne hc.1
    have hguard : s.position ≠ 0 ∧ s.entryPrice.isSome = true :=
      ⟨hne, by rw [hep]; rfl⟩
    unfold step10 at hexit ⊢
    rw [if_neg (not_not_intro hsess), if_neg hnent, if_pos hguard]
      at hexit ⊢
    unfold exitBranch at hexit ⊢
    by_cases htrig : exitTrigger p row (s.entryPrice.getD 0) (tradeDirection s)
    case neg =>
      rw [if_neg htrig] at hexit
      exact absurd hexit hne
    rw [if_pos htrig]
    have hdir : tradeDirection s = s.position := by
      rcases hpos with h | h <;> simp [tradeDirection, h]
    refine ⟨{ entryIndex := t0.entryIndex, side := t0.side
              entryPrice := t0.entryPrice, quantity := t0.quantity
              exitIndex := some i
              exitPrice := some (row.close -
                p.slippage * ((tradeDirection s : ℤ) : ℚ))
              pnlPct := some (((row.close -
                  p.slippage * ((tradeDirection s : ℤ) : ℚ) -
                  s.entryPrice.getD 0) * (s.quantity : ℚ) *
                  ((tradeDirection s : ℤ) : ℚ) -
                  p.commission * s.entryPrice.getD 0 * (s.quantity : ℚ)) /
                p.capital * 100)
              absPnl := some ((row.close -
                  p.slippage * ((tradeDirection s : ℤ) : ℚ) -
                  s.entryPrice.getD 0) * (s.quantity : ℚ) *
                  ((tradeDirection s : ℤ) : ℚ) -
                  p.commission * s.entryPrice.getD 0 * (s.quantity : ℚ))
              barsInTrade := some (i - s.entryIndex.getD 0) }, ?_, ?_⟩
    · simp only [closeTrade, hlog]
    · simp only [hdir]
  · intro rp i row s hpos hsl hlow
    have hne : s.position ≠ 0 := by rw [hpos]; decide
    have hchoice : exitChoice rp row s = some (.stopLoss, row.low) := by
      unfold exitChoice
      rw [if_pos hpos, if_pos ⟨hsl, hlow⟩]
    have hlogEq : (engineStep rp i row s).tradeLog =
        ({ entryIndex := s.entryIndex.getD 0, exitIndex := i
           side := s.position, entryPrice := s.entryPrice
           exitPrice := row.low
           pnl := if s.position = 1 then (row.low - s.entryPrice) / s.entryPrice
             else (s.entryPrice - row.low) / s.entryPrice
           reason := .stopLoss } : BTrade) :: s.tradeLog := by
      unfold engineStep
      rw [entryPhase_tradeLog]
      unfold exitPhase
      rw [if_pos hne, hchoice]
    exact ⟨_, hlogEq, rfl, rfl⟩
  · intro rp i row s hpos htp hns hhigh
    have hne : s.position ≠ 0 := by rw [hpos]; decide
    have hchoice : exitChoice rp row s = some (.takeProfit, row.high) := by
      unfold exitChoice
      rw [if_pos hpos, if_neg hns, if_pos ⟨htp, hhigh⟩]
    have hlogEq : (engineStep rp i row s).tradeLog =
        ({ entryIndex := s.entryIndex.getD 0, exitIndex := i
           side := s.position, entryPrice := s.entryPrice
           exitPrice := row.high
           pnl := if s.position = 1 then (row.high - s.entryPrice) / s.entryPrice
             else (s.entryPrice - row.high) / s.entryPrice
           reason := .takeProfit } : BTrade) :: s.tradeLog := by
      unfold engineStep
      rw [entryPhase_tradeLog]
      unfold exitPhase
      rw [if_pos hne, hchoice]
    exact ⟨_, hlogEq, rfl, rfl⟩
  · intro rp i row s hpos hsl hhigh
    have hne : s.position ≠ 0 := by rw [hpos]; decide
    have hnot1 : ¬ s.position = 1 := by rw [hpos]; decide
    have hchoice : exitChoice rp row s = some (.stopLoss, row.high) := by
      unfold exitChoice
      rw [if_neg hnot1, if_pos hpos, if_pos ⟨hsl, hhigh⟩]
    have hlogEq : (engineStep rp i row s).tradeLog =
        ({ entryIndex := s.entryIndex.getD 0, exitIndex := i
           side := s.position, entryPrice := s.entryPrice
           exitPrice := row.high
           pnl := if s.position = 1 then (row.high - s.entryPrice) / s.entryPrice
             else (s.entryPrice - row.high) / s.entryPrice
           reason := .stopLoss } : BTrade) :: s.tradeLog := by
      unfold engineStep
      rw [entryPhase_tradeLog]
      unfold exitPhase
      rw [if_pos hne, hchoice]
    exact ⟨_, hlogEq, rfl, rfl⟩

unseal Rat.add Rat.sub Rat.mul Rat.inv in
/-- Witness for the amended C1: a `10.py` stop exit at close 98 records
`98 - 0.05 * 1`; engine exits record low 90 (long stop), high 105 (long
target) and high 103 (short stop). -/
theorem C1_exit_price_witness :
    (∃ t, (step10 defaultParams10 5 c1Bar10 c1State10).tradeLog = t :: [] ∧
      t.exitPrice = some (c1Bar10.close -
        defaultParams10.slippage * ((c1State10.position : ℤ) : ℚ))) ∧
    (∃ t, (engineStep defaultRiskParams 7 c1Row1 cEngineLong).tradeLog =
        t :: cEngineLong.tradeLog ∧
      t.exitPrice = c1Row1.low ∧ t.reason = .stopLoss) ∧
    (∃ t, (engineStep defaultRiskParams 7 c1RowTp cEngineLong).tradeLog =
        t :: cEngineLong.tradeLog ∧
      t.exitPrice = c1RowTp.high ∧ t.reason = .takeProfit) ∧
    (∃ t, (engineStep defaultRiskParams 7 c1RowShortStop cEngineShort).tradeLog =
        t :: cEngineShort.tradeLog ∧
      t.exitPrice = c1RowShortStop.high ∧ t.reason = .stopLoss) :=
  ⟨C1_exit_price.1 defaultParams10 5 c1Bar10 c1State10 100
      ({ entryIndex := 4, side := 1, entryPrice := 100, quantity := 1000
         exitIndex := none, exitPrice := none, pnlPct := none
         absPnl := none, barsInTrade := none }) []
      (Or.inl rfl) rfl rfl (by decide) (by decide),
   C1_exit_price.2.1 defaultRiskParams 7 c1Row1 cEngineLong rfl rfl (by decide),
   C1_exit_price.2.2.1 defaultRiskParams 7 c1RowTp cEngineLong rfl rfl
      (by decide) (by decide),
   C1_exit_price.2.2.2 defaultRiskParams 7 c1RowShortStop cEngineShort rfl rfl
      (by decide)⟩

/-- Claim C2: on a bar where a long position breaches both the stop
(`low <= entry*(1-stopPct)`) and the target (`high >= entry*(1+targetPct)`),
exactly one exit fires — the ledger grows by exactly one record — and its
recorded reason is `Stop Loss`, not `Take Profit`: the `if/elif` chain
checks the stop first. -/
theorem C2_stop_before_target (rp : RiskParams) (i : ℕ) (row : SigRow)
    (s : EState)
    (hpos : s.position = 1)
    (hsl : rp.enableStopLoss = true)
    (htp : rp.enableTakeProfit = true)
    (hlow : row.low ≤ s.entryPrice * (1 - rp.stopLossPct))
    (hhigh : row.high ≥ s.entryPrice * (1 + rp.takeProfitPct)) :
    ∃ t, (engineStep rp i row s).tradeLog = t :: s.tradeLog ∧
      t.reason = .stopLoss ∧ t.reason ≠ .takeProfit ∧
      (engineStep rp i row s).tradeLog.length = s.tradeLog.length + 1 := by
  have hne : s.position ≠ 0 := by rw [hpos]; decide
  have hchoice : exitChoice rp row s = some (.stopLoss, row.low) := by
    unfold exitChoice
    rw [if_pos hpos, if_pos ⟨hsl, hlow⟩]
  have hlogEq : (engineStep rp i row s).tradeLog =
      ({ entryIndex := s.entryIndex.getD 0, exitIndex := i
         side := s.position, entryPrice := s.entryPrice
         exitPrice := row.low
         pnl := if s.position = 1 then (row.low - s.entryPrice) / s.entryPrice
           else (s.entryPrice - row.low) / s.entryPrice
         reason := .stopLoss } : BTrade) :: s.tradeLog := by
    unfold engineStep
    rw [entryPhase_tradeLog]
    unfold exitPhase
    rw [if_pos hne, hchoice]
  exact ⟨_, hlogEq, rfl, by simp, by rw [hlogEq]; rfl⟩

unseal Rat.add Rat.sub Rat.mul Rat.inv in
/-- Witness for C2: long at 200; the bar `low = 190, high = 210` breaches
both the 2% stop (196) and the 4% target (208); the single appended record
reads `Stop Loss`. -/
theorem C2_stop_before_target_witness :
    ∃ t, (engineStep defaultRiskParams 1 c2Row1 c2State).tradeLog =
        t :: c2State.tradeLog ∧
      t.reason = .stopLoss ∧ t.reason ≠ .takeProfit ∧
      (engineStep defaultRiskParams 1 c2Row1 c2State).tradeLog.length =
        c2State.tradeLog.length + 1 :=
  C2_stop_before_target defaultRiskParams 1 c2Row1 c2State rfl rfl rfl
    (by decide) (by decide)

/-- Counterexample to claim C7: an unrecognized moving-average kind does NOT
surface an error before the run.  `_calculate_ma` raises (modelled by
`Except.error`), but `generate_signals` catches every exception and returns
an empty DataFrame, so `_run_backtest_for_params` silently returns an empty
trade list instead of propagating a configuration error. -/
theorem C7_counterexample :
    calculateMa [(100 : ℚ)] 12 (.other ("WMA")) =
      .error ("ma_type must be either SMA or EMA") ∧
    generateSignals
      { fastPeriod := 12, slowPeriod := 26, maType := .other ("WMA")
        trendFilterEnabled := true, trendFilterPeriod := 200 } c7Bars = [] ∧
    runBacktestForParams
      { fastPeriod := 12, slowPeriod := 26, maType := .other ("WMA")
        trendFilterEnabled := true, trendFilterPeriod := 200 }
      defaultRiskParams c7Bars = [] :=
  ⟨rfl, rfl, rfl⟩

/-- Claim C7, amended: an unrecognized `ma_type` makes `_calculate_ma` raise
`ValueError`, but the exception is swallowed inside `generate_signals`
(which returns an empty DataFrame), so the engine returns an empty result
for that parameter set instead of failing fast; the simulation loop body
never executes, but no configuration error reaches the caller, and nothing
is validated at strategy-construction time. -/
theorem C7_swallowed_config_error (sp : StratParams) (rp : RiskParams)
    (bars : List Bar) (msg : String)
    (hmt : sp.maType = .other msg) :
    (∀ (series : List ℚ) (period : ℕ),
      calculateMa series period sp.maType =
        .error ("ma_type must be either SMA or EMA")) ∧
    generateSignals sp bars = [] ∧
    runBacktestForParams sp rp bars = [] := by
  have hcalc : ∀ (series : List ℚ) (period : ℕ),
      calculateMa series period sp.maType =
        .error ("ma_type must be either SMA or EMA") := by
    intro series period
    rw [hmt]
    rfl
  have hsig : generateSignals sp bars = [] := by
    unfold generateSignals
    simp only [hcalc]
  refine ⟨hcalc, hsig, ?_⟩
  unfold runBacktestForParams
  rw [hsig]
  rfl

/-- Witness for the amended C7 at kind `"WMA"` on a one-bar series. -/
theorem C7_swallowed_config_error_witness :
    (∀ (series : List ℚ) (period : ℕ),
      calculateMa series period (MaType.other ("WMA")) =
        .error ("ma_type must be either SMA or EMA")) ∧
    generateSignals
      { fastPeriod := 10, slowPeriod := 20, maType := .other ("WMA")
        trendFilterEnabled := false, trendFilterPeriod := 200 } c7Bars = [] ∧
    runBacktestForParams
      { fastPeriod := 10, slowPeriod := 20, maType := .other ("WMA")
        trendFilterEnabled := false, trendFilterPeriod := 200 }
      defaultRiskParams c7Bars = [] :=
  C7_swallowed_config_error
    { fastPeriod := 10, slowPeriod := 20, maType := .other ("WMA")
      trendFilterEnabled := false, trendFilterPeriod := 200 }
    defaultRiskParams c7Bars "WMA" rfl

/-- Counterexample to claim C8: with no losing trades the engine metric
reports `np.inf`, not a not-a-number sentinel. -/
theorem C8_counterexample :
    profitFactorEngine [(1 : ℚ)] = .inf ∧ PFValue.inf ≠ PFValue.nan := by
  exact ⟨by decide, by decide⟩

/-- Claim C8, amended: both profit-factor computations equal
`|sum(winning PnL) / sum(losing PnL)|` when the losing sum is nonzero
(`10.py` additionally requires at least one losing trade), and when there
are no losing trades `10.py` reports NaN (`none`) while the engine reports
`np.inf`; neither raises. -/
theorem C8_profit_factor (pnls : List ℚ) :
    ((pnls.filter fun x => x ≤ 0).isEmpty = false →
      (pnls.filter fun x => x ≤ 0).sum ≠ 0 →
      profitFactor10 pnls =
        some |(pnls.filter fun x => 0 < x).sum /
          (pnls.filter fun x => x ≤ 0).sum|) ∧
    ((pnls.filter fun x => x ≤ 0).isEmpty = true →
      profitFactor10 pnls = none) ∧
    ((pnls.filter fun x => x ≤ 0).sum ≠ 0 →
      profitFactorEngine pnls =
        .val |(pnls.filter fun x => 0 < x).sum /
          (pnls.filter fun x => x ≤ 0).sum|) ∧
    ((pnls.filter fun x => x ≤ 0).sum = 0 →
      profitFactorEngine pnls = .inf ∧ profitFactorEngine pnls ≠ .nan) := by
  refine ⟨?_, ?_, ?_, ?_⟩
  · intro hne hsum
    unfold profitFactor10
    rw [if_pos ⟨by simp [hne], hsum⟩]
  · intro hemp
    unfold profitFactor10
    rw [if_neg (fun hc => hc.1 hemp)]
  · intro hsum
    unfold profitFactorEngine
    rw [if_pos hsum]
  · intro hsum
    unfold profitFactorEngine
    rw [if_neg (not_not_intro hsum)]
    exact ⟨rfl, by decide⟩

unseal Rat.add Rat.sub Rat.mul Rat.inv in
/-- Witness for the amended C8 at `[1]` (no losers: NaN vs infinity) and at
`[1, -2]` (a loser: both equal `|1 / (-2)| = 1/2`). -/
theorem C8_profit_factor_witness :
    profitFactor10 [(1 : ℚ)] = none ∧
    profitFactorEngine [(1 : ℚ)] = .inf ∧
    profitFactor10 [(1 : ℚ), (-2 : ℚ)] =
      some |([(1 : ℚ), (-2 : ℚ)].filter fun x => 0 < x).sum /
        ([(1 : ℚ), (-2 : ℚ)].filter fun x => x ≤ 0).sum| ∧
    profitFactorEngine [(1 : ℚ), (-2 : ℚ)] =
      .val |([(1 : ℚ), (-2 : ℚ)].filter fun x => 0 < x).sum /
        ([(1 : ℚ), (-2 : ℚ)].filter fun x => x ≤ 0).sum| :=
  ⟨(C8_profit_factor [(1 : ℚ)]).2.1 (by decide),
   ((C8_profit_factor [(1 : ℚ)]).2.2.2 (by decide)).1,
   (C8_profit_factor [(1 : ℚ), (-2 : ℚ)]).1 (by decide) (by decide),
   (C8_profit_factor [(1 : ℚ), (-2 : ℚ)]).2.2.1 (by decide)⟩

/-- Claim C9: over a constant series of value `v`, the exponential moving
average (`EMA[0] = series[0]`, `EMA[i] = alpha*series[i] + (1-alpha)*EMA[i-1]`,
`alpha = 2/(period+1)`) returns `v` at every bar, and the simple moving
average returns `v` at every bar past the warm-up (`i >= period - 1`). -/
theorem C9_constant_series_ma (v : ℚ) (n period : ℕ) (hp : 1 ≤ period) :
    calculateMa (List.replicate n v) period .EMA =
      .ok (List.replicate n (some v)) ∧
    (∀ ma, calculateMa (List.replicate n v) period .SMA = .ok ma →
      ∀ i, period - 1 ≤ i → i < n → ma.getD i none = some v) := by
  constructor
  · unfold calculateMa
    rw [ewm_const, List.map_replicate]
  · intro ma hma i hip hin
    have : ma = rollingMean period (List.replicate n v) := by
      unfold calculateMa at hma
      exact (Except.ok.injEq _ _).mp hma.symm |>.symm ▸ rfl
    rw [this]
    exact rollingMean_const v n period i hp hip hin

/-- Claim C6: neither signal generator produces an entry or exit signal at the
first bar (index 0): the crossover comparison has no previous value there
(`shift(1)` is NaN, filled with `False`), and the two moving averages start
either undefined or at the same seed value. -/
theorem C6_no_first_bar_signal (sp : StratParams) (bars : List Bar)
    (closes10 : List ℚ) (f10 s10 g10 : ℕ)
    (hbars : bars ≠ [])
    (hfast : 1 ≤ sp.fastPeriod) (hslow : 1 ≤ sp.slowPeriod)
    (hma : sp.maType = .SMA ∨ sp.maType = .EMA)
    (hc : closes10 ≠ []) :
    ((generateSignals sp bars).head?.map fun r =>
      r.longEntry || r.shortEntry || r.longExit || r.shortExit) = some false ∧
    ((signals10 closes10 f10 s10 g10).head?.map fun r => r.1 || r.2) =
      some false := by
  constructor
  · obtain ⟨b, bs, rfl⟩ := List.exists_cons_of_ne_nil hbars
    obtain ⟨v1, r1, hf, hv1⟩ := calculateMa_head b.close (bs.map Bar.close)
      sp.fastPeriod hfast sp.maType hma
    obtain ⟨v2, r2, hs2, hv2⟩ := calculateMa_head b.close (bs.map Bar.close)
      sp.slowPeriod hslow sp.maType hma
    obtain ⟨l3, ht3⟩ : ∃ l3,
        (if sp.trendFilterEnabled then
          calculateMa (List.map Bar.close (b :: bs)) sp.trendFilterPeriod
            sp.maType
        else .ok (List.map some (List.map Bar.close (b :: bs)))) = .ok l3 := by
      split_ifs
      · exact calculateMa_ok _ _ _ hma
      · exact ⟨_, rfl⟩
    have habove : optGt v1 v2 = false := optGt_head_false v1 v2 b.close hv1 hv2
    simp only [generateSignals, List.map_cons] at ht3 ⊢
    rw [hf, hs2, ht3]
    simp [List.range_succ_eq_map, shiftFillFalse, habove]
  · obtain ⟨c, cs, rfl⟩ := List.exists_cons_of_ne_nil hc
    have hup := macdCrossUp_head
      (List.zipWith (· - ·) (ewm (2 / ((f10 : ℚ) + 1)) (c :: cs))
        (ewm (2 / ((s10 : ℚ) + 1)) (c :: cs)))
      (ewm (2 / ((g10 : ℚ) + 1))
        (List.zipWith (· - ·) (ewm (2 / ((f10 : ℚ) + 1)) (c :: cs))
          (ewm (2 / ((s10 : ℚ) + 1)) (c :: cs))))
    have hdown := macdCrossDown_head
      (List.zipWith (· - ·) (ewm (2 / ((f10 : ℚ) + 1)) (c :: cs))
        (ewm (2 / ((s10 : ℚ) + 1)) (c :: cs)))
      (ewm (2 / ((g10 : ℚ) + 1))
        (List.zipWith (· - ·) (ewm (2 / ((f10 : ℚ) + 1)) (c :: cs))
          (ewm (2 / ((s10 : ℚ) + 1)) (c :: cs))))
    simp only [List.getD_eq_getElem?_getD] at hup hdown
    simp only [signals10]
    simp [List.range_succ_eq_map, hup, hdown]

/-- Witness for C6: EMA crossover parameters 12/26 with a 200-bar trend
filter on a two-bar series, and MACD(12, 26, 9) on a two-point series: no
flag is set at index 0. -/
theorem C6_no_first_bar_signal_witness :
    ((generateSignals
        { fastPeriod := 12, slowPeriod := 26, maType := .EMA
          trendFilterEnabled := true, trendFilterPeriod := 200 }
        c6Bars).head?.map fun r =>
      r.longEntry || r.shortEntry || r.longExit || r.shortExit) = some false ∧
    ((signals10 [(100 : ℚ), 101] 12 26 9).head?.map fun r => r.1 || r.2) =
      some false :=
  C6_no_first_bar_signal
    { fastPeriod := 12, slowPeriod := 26, maType := .EMA
      trendFilterEnabled := true, trendFilterPeriod := 200 }
    c6Bars [(100 : ℚ), 101] 12 26 9 (by decide) (by decide) (by decide)
    (Or.inr rfl) (by decide)

/-- Witness for C9 at `v = 5`, `n = 3`, `period = 2`, index 1. -/
theorem C9_constant_series_ma_witness :
    calculateMa (List.replicate 3 (5 : ℚ)) 2 .EMA =
      .ok (List.replicate 3 (some (5 : ℚ))) ∧
    (rollingMean 2 (List.replicate 3 (5 : ℚ))).getD 1 none = some 5 :=
  ⟨(C9_constant_series_ma 5 3 2 (by decide)).1,
   (C9_constant_series_ma 5 3 2 (by decide)).2
     (rollingMean 2 (List.replicate 3 (5 : ℚ))) rfl 1 (by decide) (by decide)⟩

end Algo
